import Mathlib

/-!
Shallow embedding of the reminder and medicine-alternatives logic of
`sehaty_backend/controllers/medicineController.js`.

Timestamps are modelled as natural numbers of milliseconds since the epoch
(the server clock is taken to be UTC).  A calendar day is the quotient by
`dayMs`; the string produced by `toISOString().split('T')[0]` identifies a
timestamp's calendar day, so the day-number quotient `normDay` is a faithful
model of that normalisation (two timestamps yield the same date string
exactly when they lie in the same UTC day).
-/

namespace Sehaty

def dayMs : Nat := 86400000

/-- `startOfDay` from date-fns: truncate a timestamp to its UTC day start. -/
def startOfDay (t : Nat) : Nat := (t / dayMs) * dayMs

/-- `endOfDay` from date-fns: last millisecond (23:59:59.999) of the day. -/
def endOfDay (t : Nat) : Nat := startOfDay t + (dayMs - 1)

/-- `addDays` from date-fns. -/
def addDays (t n : Nat) : Nat := t + n * dayMs

/-- The calendar day of a timestamp: models `toISOString().split('T')[0]`. -/
def normDay (t : Nat) : Nat := t / dayMs

/-- `setHours(h, m, 0, 0)` applied with a source timestamp's hours and
minutes: the time-of-day of `t` truncated to whole minutes. -/
def hmOf (t : Nat) : Nat := (t % dayMs) / 60000 * 60000

/-! ## Medicine-alternatives data model (`MedicineModel`, `PharmacyMedicineModel`, `PharmacyModel`) -/

structure Medicine where
  mid : Nat
  name : String
  activeIngredient : Nat
  alternatives : List Nat
  isDeleted : Bool
  isAvailable : Bool
deriving Repr, DecidableEq

structure Pharmacy where
  pid : Nat
  name : String
deriving Repr, DecidableEq

structure PharmacyMedicine where
  medicineId : Nat
  pharmacyId : Nat
  price : Nat
  stock : Nat
  discount : Nat
  isAvailable : Bool
  isDeleted : Bool
deriving Repr, DecidableEq

structure PharmacyInfo where
  pharmacyId : Nat
  pharmacyName : String
  price : Nat
  stock : Nat
  discount : Nat
  isAvailable : Bool
deriving Repr, DecidableEq

/-- An alternative medicine together with the attached `pharmacyInfo`. -/
structure AltResult where
  med : Medicine
  pharmacyInfo : PharmacyInfo
deriving Repr, DecidableEq

structure MedDB where
  medicines : List Medicine
  pharmacyMedicines : List PharmacyMedicine
  pharmacies : List Pharmacy
deriving Repr

/-- `PharmacyMedicine.findOne({medicineId, isAvailable: true, isDeleted: false,
stock: {$gt: 0}})`. -/
def findPharmacyFor (db : MedDB) (mid : Nat) : Option PharmacyMedicine :=
  db.pharmacyMedicines.find? fun pm =>
    pm.medicineId == mid && pm.isAvailable && !pm.isDeleted && pm.stock > 0

/-- Build the `pharmacyInfo` object, resolving `pharmacyId` (populate) to
its name. -/
def pharmacyInfoOf (db : MedDB) (pm : PharmacyMedicine) : PharmacyInfo :=
  { pharmacyId := pm.pharmacyId
    pharmacyName := (((db.pharmacies.find? fun p => p.pid == pm.pharmacyId).map
      Pharmacy.name).getD "")
    price := pm.price
    stock := pm.stock
    discount := pm.discount
    isAvailable := pm.isAvailable }

/-- The per-alternative pharmacy join used by both resolution paths: keep the
alternative only if an available, in-stock pharmacy listing exists. -/
def withPharmacy (db : MedDB) (alt : Medicine) : Option AltResult :=
  (findPharmacyFor db alt.mid).map fun pm => ⟨alt, pharmacyInfoOf db pm⟩

/-- `findAlternativesByActiveIngredient`: all other non-deleted available
medicines with the same active ingredient, joined with pharmacy stock and
filtered to those with a listing. -/
def findAlternativesByActiveIngredient (db : MedDB) (m : Medicine) : List AltResult :=
  (db.medicines.filter fun a =>
      a.mid != m.mid && a.activeIngredient == m.activeIngredient &&
      !a.isDeleted && a.isAvailable).filterMap (withPharmacy db)

/-- `populate('alternatives')` followed by the pharmacy join and null filter:
resolve each curated reference (dropping dangling ones), then keep the
entries with an available, in-stock pharmacy listing. -/
def resolveCurated (db : MedDB) (m : Medicine) : List AltResult :=
  (m.alternatives.filterMap fun aid =>
    db.medicines.find? fun a => a.mid == aid).filterMap (withPharmacy db)

structure AltResponse where
  alternatives : List AltResult
  source : String
deriving Repr, DecidableEq

/-- `getMedicineAlternatives`: `none` models the 404 path (missing or
soft-deleted medicine); otherwise the JSON response body. -/
def getMedicineAlternatives (db : MedDB) (mid : Nat) : Option AltResponse :=
  match db.medicines.find? fun m => m.mid == mid with
  | Option.none => Option.none
  | Option.some m =>
    if m.isDeleted then Option.none
    else
      let curated := if m.alternatives.length > 0 then resolveCurated db m else []
      let alternatives :=
        if curated.length == 0 then findAlternativesByActiveIngredient db m
        else curated
      Option.some
        { alternatives := alternatives
          source :=
            if alternatives.length > 0 then
              (if m.alternatives.length > 0 then "predefined" else "activeIngredient")
            else "none" }

/-! ## Reminder data model (`models/Reminder.js`) -/

/-- An entry of the embedded `dailyStatuses` array. -/
structure DailyStatus where
  date : Nat
  status : String
  isTaken : Bool
deriving Repr, DecidableEq

structure Reminder where
  rid : Nat
  user : Nat
  medicineId : Nat
  product : String
  title : String
  description : String
  time : Nat
  frequency : String
  startDate : Nat
  endDate : Nat
  dosage : String
  notes : String
  notificationPreferences : String
  status : String
  isTaken : Bool
  isDeleted : Bool
  deletedAt : Option Nat
  dailyStatuses : List DailyStatus
deriving Repr, DecidableEq

/-- A user record, keeping only the `reminders` id list the controller
touches. -/
structure UserRec where
  uid : Nat
  reminders : List Nat
deriving Repr, DecidableEq

/-! ## createReminder -/

structure CreateReminderBody where
  product : String
  title : String
  description : String
  medicineId : Nat
  time : Nat
  frequency : String
  startDate : Nat
  endDate : Nat
  dosage : String
  notes : String
  notificationPreferences : String
deriving Repr

/-- One iteration's `new Reminder({...})`: `reminderTime` is `currentDate`
with its hours/minutes replaced by those of `time` (seconds and millis
zeroed), `startDate` is the loop's current day, `endDate` is the whole
range's `endDateTime`, and `dailyStatuses` is seeded with one active,
not-taken entry for the current day. -/
def mkDayReminder (uid : Nat) (b : CreateReminderBody) (rid current endT : Nat) : Reminder :=
  { rid := rid
    user := uid
    medicineId := b.medicineId
    product := b.product
    title := b.title
    description := b.description
    time := startOfDay current + hmOf b.time
    frequency := b.frequency
    startDate := current
    endDate := endT
    dosage := b.dosage
    notes := b.notes
    notificationPreferences := b.notificationPreferences
    status := "active"
    isTaken := false
    isDeleted := false
    deletedAt := Option.none
    dailyStatuses := [⟨current, "active", false⟩] }

/-- The `while (currentDate <= endDateTime)` loop: one saved reminder per
day, stepping by `addDays(currentDate, 1)`.  Fresh ids are modelled by a
counter. -/
def createReminderLoop (uid : Nat) (b : CreateReminderBody) (rid current endT : Nat) :
    List Reminder :=
  if h : current ≤ endT then
    mkDayReminder uid b rid current endT ::
      createReminderLoop uid b (rid + 1) (addDays current 1) endT
  else []
termination_by endT + 1 - current
decreasing_by simp only [addDays, dayMs]; omega

/-- The records persisted by `createReminder` for one request. -/
def createdReminders (uid : Nat) (b : CreateReminderBody) (rid : Nat) : List Reminder :=
  createReminderLoop uid b rid (startOfDay b.startDate) (endOfDay b.endDate)

/-- The full handler: response `(201, created list)`, the persisted reminder
collection, and the user with all created ids pushed. -/
def createReminderH (uid : Nat) (b : CreateReminderBody) (rid : Nat)
    (db : List Reminder) (user : UserRec) :
    (Nat × List Reminder) × List Reminder × UserRec :=
  let created := createdReminders uid b rid
  ((201, created), db ++ created,
   { user with reminders := user.reminders ++ created.map Reminder.rid })

/-! ## Reminder lookups -/

/-- The `findOne({_id, user, isDeleted: false})` criterion shared by
`getReminder`, `updateReminder`, `deleteReminder` and `markReminderAsTaken`. -/
def reminderCrit (uid rid : Nat) (r : Reminder) : Bool :=
  r.rid == rid && r.user == uid && !r.isDeleted

/-- `getReminder`: `none` models the 404 path. -/
def getReminderH (uid rid : Nat) (db : List Reminder) : Option Reminder :=
  db.find? (reminderCrit uid rid)

/-- `getUserReminders`: the user's non-deleted reminders sorted by time. -/
def getUserRemindersH (uid : Nat) (db : List Reminder) : List Reminder :=
  (db.filter fun r => r.user == uid && !r.isDeleted).mergeSort
    fun a b => a.time ≤ b.time

/-! ## updateReminder -/

structure UpdateBody where
  title : Option String
  description : Option String
  time : Option Nat
  frequency : Option String
  startDate : Option Nat
  endDate : Option Nat
  dosage : Option String
  notes : Option String
  product : Option String
  notificationPreferences : Option String
  status : Option String
deriving Repr

/-- Apply `updateData` after its `undefined`/`null` keys were stripped. -/
def applyUpdate (u : UpdateBody) (r : Reminder) : Reminder :=
  { r with
    title := u.title.getD r.title
    description := u.description.getD r.description
    time := u.time.getD r.time
    frequency := u.frequency.getD r.frequency
    startDate := u.startDate.getD r.startDate
    endDate := u.endDate.getD r.endDate
    dosage := u.dosage.getD r.dosage
    notes := u.notes.getD r.notes
    product := u.product.getD r.product
    notificationPreferences := u.notificationPreferences.getD r.notificationPreferences
    status := u.status.getD r.status }

/-- `updateReminder` via `findOneAndUpdate`: `none` models the 404 path and
leaves the collection untouched. -/
def updateReminderH (uid rid : Nat) (u : UpdateBody) (db : List Reminder) :
    Option Reminder × List Reminder :=
  match db.find? (reminderCrit uid rid) with
  | Option.none => (Option.none, db)
  | Option.some r =>
    let r' := applyUpdate u r
    (Option.some r', db.map fun x => if x.rid == r.rid then r' else x)

/-! ## deleteReminder -/

/-- `deleteReminder`: soft-delete via `findOneAndUpdate` plus `$pull` of the
id from the user's `reminders` list.  Returns the found reminder (after
update), the new collection and the new user record. -/
def deleteReminderH (uid rid now : Nat) (db : List Reminder) (user : UserRec) :
    Option Reminder × List Reminder × UserRec :=
  match db.find? (reminderCrit uid rid) with
  | Option.none => (Option.none, db, user)
  | Option.some r =>
    let r' := { r with isDeleted := true, deletedAt := Option.some now }
    (Option.some r',
     db.map fun x => if x.rid == r.rid then r' else x,
     { user with reminders := user.reminders.filter fun i => i ≠ r.rid })

/-! ## getRemindersByDate -/

/-- Query-window test of `getRemindersByDate` for day `d`: reminder range
overlaps the day, or the reminder's `time` falls inside it. -/
def overlapsQuery (uid d : Nat) (r : Reminder) : Bool :=
  r.user == uid && !r.isDeleted &&
    ((r.startDate ≤ d * dayMs + (dayMs - 1) && d * dayMs ≤ r.endDate) ||
     (d * dayMs ≤ r.time && r.time ≤ d * dayMs + (dayMs - 1)))

/-- The lazily-created default entry (`status: 'active', isTaken: false`)
for day `d`, dated at `queryDate` (midnight UTC). -/
def defaultStatus (d : Nat) : DailyStatus := ⟨d * dayMs, "active", false⟩

/-- Find the `dailyStatuses` entry whose date normalises to day `d`; if
absent, push and persist a default entry.  Returns the (possibly updated)
reminder together with the attached `currentStatus`. -/
def ensureDaily (d : Nat) (r : Reminder) : Reminder × DailyStatus :=
  match r.dailyStatuses.find? fun s => normDay s.date == d with
  | Option.some ds => (r, ds)
  | Option.none =>
    ({ r with dailyStatuses := r.dailyStatuses ++ [defaultStatus d] }, defaultStatus d)

/-- Per-reminder effect of a `getRemindersByDate` call on the stored
collection: matched reminders get their day-`d` entry ensured, others are
untouched. -/
def refreshForDate (uid d : Nat) (r : Reminder) : Reminder :=
  if overlapsQuery uid d r then (ensureDaily d r).1 else r

/-- `getRemindersByDate`: the updated collection, and the response list of
matched reminders (sorted by time) each paired with its `currentStatus`. -/
def getRemindersByDate (uid d : Nat) (db : List Reminder) :
    List Reminder × List (Reminder × DailyStatus) :=
  (db.map (refreshForDate uid d),
   ((db.filter (overlapsQuery uid d)).mergeSort
      fun a b => a.time ≤ b.time).map (ensureDaily d))

/-! ## markReminderAsTaken -/

/-- The raw request body `{date, status}`: `none` models an absent field,
`some` a present string (possibly empty).  Calendar-date strings are
modelled by canonical decimal numerals of day numbers — `toString d` plays
the role of day `d`'s `YYYY-MM-DD` text, so distinct days have distinct
strings and non-canonical text is not a valid date, exactly as for real
ISO date strings. -/
structure MarkBody where
  date : Option String
  status : Option String
deriving Repr, DecidableEq

/-- JavaScript falsiness of a possibly-absent string field (`!date`,
`!status`): absent or the empty string. -/
def strFalsy : Option String → Bool
  | Option.none => true
  | Option.some s => s == ""

/-- Model of `new Date(s + 'T00:00:00.000Z')` on the model's date-string
space: the canonical decimal numeral of a day number denotes that day
(its midnight UTC); any other string — empty, non-numeric, or
non-canonical — is an Invalid Date, whose later `toISOString()` throws. -/
def parseDay (s : String) : Option Nat :=
  if s.data.all (fun c => c.isDigit) then
    let d := s.data.foldl (fun n c => n * 10 + (c.toNat - 48)) 0
    if toString d == s then Option.some d else Option.none
  else Option.none

inductive MarkResponse where
  | badRequest (date : Option String) (status : Option String)
  | notFound
  /-- The catch-all 500 path: an Invalid Date's `toISOString()` throws
  before any mutation. -/
  | serverError
  | ok (reminder : Reminder) (currentStatus : DailyStatus)
deriving Repr, DecidableEq

def MarkResponse.code : MarkResponse → Nat
  | .badRequest _ _ => 400
  | .notFound => 404
  | .serverError => 500
  | .ok _ _ => 200

/-- The `dailyStatuses` mutation of `markReminderAsTaken`: find the first
entry for day `d` (else push a default dated at `targetDate`), then set its
`status` to `s` and `isTaken` to `s === 'completed'`.  Returns the new
array together with the mutated entry (the handler's `dailyStatus`). -/
def updFirst (d : Nat) (s : String) : List DailyStatus → List DailyStatus × DailyStatus
  | [] =>
    let e : DailyStatus := ⟨d * dayMs, s, s == "completed"⟩
    ([e], e)
  | x :: rest =>
    if normDay x.date == d then
      let e := { x with status := s, isTaken := s == "completed" }
      (e :: rest, e)
    else
      let p := updFirst d s rest
      (x :: p.1, p.2)

/-- `markReminderAsTaken`.  The guard `!date || !status` tests JavaScript
falsiness of both raw fields; the reminder lookup happens before the date
string is parsed (so a 404 precedes any Invalid-Date failure), and an
unparsable date then hits the catch-all 500 when `toISOString()` throws.
For a parsed day `d`, the entry comparison
`statusDate.toISOString().split('T')[0] === date` coincides with comparing
day numbers, since the request string is canonical.  `today` is the
current date's day number (the handler recomputes it from `new Date()`);
the top-level `status`/`isTaken` are mirrored only when the target day
equals it.  Returns the response and the updated collection. -/
def markReminderAsTaken (uid rid : Nat) (body : MarkBody) (today : Nat)
    (db : List Reminder) : MarkResponse × List Reminder :=
  if strFalsy body.date || strFalsy body.status then
    (.badRequest body.date body.status, db)
  else
    match body.date, body.status with
    | Option.some ds, Option.some s =>
      match db.find? (reminderCrit uid rid) with
      | Option.none => (.notFound, db)
      | Option.some r =>
        match parseDay ds with
        | Option.none => (.serverError, db)
        | Option.some d =>
          let p := updFirst d s r.dailyStatuses
          let isToday := normDay (d * dayMs) == today
          let r' := { r with
            dailyStatuses := p.1
            status := if isToday then s else r.status
            isTaken := if isToday then s == "completed" else r.isTaken }
          (.ok r' p.2, db.map fun x => if x.rid == r.rid then r' else x)
    | _, _ => (.badRequest body.date body.status, db)

/-! ## Concrete data for the alternative-resolver claims -/

/-- A medicine whose curated `alternatives` list holds exactly medicine 2. -/
def exMedA : Medicine := ⟨1, "A", 10, [2], false, true⟩

/-- The curated alternative: same active ingredient, but no pharmacy
listing at all, so the availability filter drops it. -/
def exMedB : Medicine := ⟨2, "B", 10, [], false, true⟩

/-- A third medicine sharing the active ingredient, with an in-stock
listing, reachable only through the fallback query. -/
def exMedC : Medicine := ⟨3, "C", 10, [], false, true⟩

def exDB : MedDB :=
  { medicines := [exMedA, exMedB, exMedC]
    pharmacyMedicines := [⟨3, 7, 5, 4, 0, true, false⟩]
    pharmacies := [⟨7, "P"⟩] }

/-- C1 counterexample: medicine 1 has a non-empty curated list all of whose
members are dropped by the pharmacy-availability filter, yet the handler
does fall back to active-ingredient matching (the returned list is exactly
the fallback result, and non-empty) and tags the response `predefined`, not
`none`. -/
theorem alt_claim_no_fallback_cex :
    exMedA.alternatives ≠ [] ∧
    resolveCurated exDB exMedA = [] ∧
    (getMedicineAlternatives exDB 1).map AltResponse.alternatives =
      Option.some (findAlternativesByActiveIngredient exDB exMedA) ∧
    findAlternativesByActiveIngredient exDB exMedA ≠ [] ∧
    (getMedicineAlternatives exDB 1).map AltResponse.source = Option.some "predefined" := by
  decide

/-- C1 (amended): when the medicine exists, is not deleted, has a non-empty
curated list, and every curated alternative is dropped by the
pharmacy-availability filter, `getMedicineAlternatives` falls back to
active-ingredient matching; the source is `none` only when that fallback is
also empty, and `predefined` when it is non-empty. -/
theorem alt_allDropped_falls_back (db : MedDB) (mid : Nat) (m : Medicine)
    (hfind : (db.medicines.find? fun x => x.mid == mid) = Option.some m)
    (hdel : m.isDeleted = false)
    (hne : 0 < m.alternatives.length)
    (hdrop : resolveCurated db m = []) :
    getMedicineAlternatives db mid =
      Option.some
        { alternatives := findAlternativesByActiveIngredient db m
          source :=
            if (findAlternativesByActiveIngredient db m).length > 0 then "predefined"
            else "none" } := by
  unfold getMedicineAlternatives
  rw [hfind]
  simp only [hdel, if_false, Bool.false_eq_true]
  simp [hdrop, hne]

/-- Witness for the amended C1 theorem at the concrete database. -/
theorem alt_allDropped_falls_back_witness :
    getMedicineAlternatives exDB 1 =
      Option.some
        { alternatives := findAlternativesByActiveIngredient exDB exMedA
          source :=
            if (findAlternativesByActiveIngredient exDB exMedA).length > 0 then "predefined"
            else "none" } :=
  alt_allDropped_falls_back exDB 1 exMedA (by decide) (by decide) (by decide) (by decide)

/-- C3 counterexample: the returned alternatives are exactly the non-empty
active-ingredient fallback result (the curated list yielded nothing after
filtering), yet the response is tagged `predefined`. -/
theorem alt_source_mislabels_fallback_cex :
    (getMedicineAlternatives exDB 1).map AltResponse.alternatives =
      Option.some (findAlternativesByActiveIngredient exDB exMedA) ∧
    findAlternativesByActiveIngredient exDB exMedA ≠ [] ∧
    resolveCurated exDB exMedA = [] ∧
    (getMedicineAlternatives exDB 1).map AltResponse.source = Option.some "predefined" := by
  decide

/-- C3 (amended): the source tag depends only on whether the returned list
is empty and whether the curated reference list is non-empty — `none` iff
no alternatives are returned; `predefined` iff alternatives are returned
and the curated list is non-empty (even when they came from the
active-ingredient fallback); `activeIngredient` iff alternatives are
returned and the curated list is empty. -/
theorem alt_source_characterization (db : MedDB) (mid : Nat) (m : Medicine)
    (resp : AltResponse)
    (hfind : (db.medicines.find? fun x => x.mid == mid) = Option.some m)
    (hdel : m.isDeleted = false)
    (hresp : getMedicineAlternatives db mid = Option.some resp) :
    (resp.source = "none" ↔ resp.alternatives = []) ∧
    (resp.source = "predefined" ↔ resp.alternatives ≠ [] ∧ m.alternatives ≠ []) ∧
    (resp.source = "activeIngredient" ↔ resp.alternatives ≠ [] ∧ m.alternatives = []) := by
  unfold getMedicineAlternatives at hresp
  rw [hfind] at hresp
  simp only [hdel, Bool.false_eq_true, if_false] at hresp
  set curated := if m.alternatives.length > 0 then resolveCurated db m else [] with hcur
  set alts := if curated.length == 0 then findAlternativesByActiveIngredient db m else curated
    with halts
  obtain ⟨rfl⟩ : resp =
      { alternatives := alts
        source := if alts.length > 0 then
            (if m.alternatives.length > 0 then "predefined" else "activeIngredient")
          else "none" } := by
    cases hresp; rfl
  by_cases ha : alts = []
  · simp [ha]
  · have hl : 0 < alts.length := List.length_pos.mpr ha
    by_cases hm : m.alternatives = []
    · simp [hl, hm, ha]
    · have hm' : 0 < m.alternatives.length := List.length_pos.mpr hm
      simp [hl, hm', ha, hm]

/-- Witness for the amended C3 theorem at the concrete database. -/
theorem alt_source_characterization_witness :
    let resp : AltResponse :=
      { alternatives := findAlternativesByActiveIngredient exDB exMedA
        source := "predefined" }
    (resp.source = "none" ↔ resp.alternatives = []) ∧
    (resp.source = "predefined" ↔ resp.alternatives ≠ [] ∧ exMedA.alternatives ≠ []) ∧
    (resp.source = "activeIngredient" ↔ resp.alternatives ≠ [] ∧ exMedA.alternatives = []) :=
  alt_source_characterization exDB 1 exMedA _ (by decide) (by decide) (by decide)

/-! ## The createReminder generation loop -/

/-- Closed form of the generation loop on a range of whole days: one record
per day, with consecutive ids and day starts, all sharing the range's end
timestamp. -/
lemma createReminderLoop_eq (uid : Nat) (b : CreateReminderBody) :
    ∀ (n rid s : Nat),
      createReminderLoop uid b rid (s * dayMs) ((s + n) * dayMs + (dayMs - 1)) =
      (List.range (n + 1)).map fun i =>
        mkDayReminder uid b (rid + i) ((s + i) * dayMs) ((s + n) * dayMs + (dayMs - 1)) := by
  intro n
  induction n with
  | zero =>
    intro rid s
    rw [createReminderLoop, dif_pos (by simp only [dayMs]; omega)]
    rw [createReminderLoop, dif_neg (by simp only [addDays, dayMs]; omega)]
    simp [List.range_succ]
  | succ n ih =>
    intro rid s
    rw [createReminderLoop,
      dif_pos (by simp only [dayMs]; omega : s * dayMs ≤ (s + (n+1)) * dayMs + (dayMs - 1))]
    have harg : addDays (s * dayMs) 1 = (s + 1) * dayMs := by
      simp only [addDays]; ring
    have hend : (s + (n + 1)) * dayMs + (dayMs - 1) = ((s + 1) + n) * dayMs + (dayMs - 1) := by
      ring_nf
    rw [harg, hend, ih (rid + 1) (s + 1)]
    conv_rhs => rw [List.range_succ_eq_map]
    rw [List.map_cons, List.map_map]
    refine List.cons_eq_cons.mpr ⟨rfl, ?_⟩
    apply List.map_congr_left
    intro i _
    simp only [Function.comp]
    have h1 : rid + 1 + i = rid + (i + 1) := by omega
    have h2 : s + 1 + i = s + (i + 1) := by omega
    rw [h1, h2]

/-- Closed form of `createdReminders` for a non-inverted range. -/
lemma createdReminders_eq (uid : Nat) (b : CreateReminderBody) (rid : Nat)
    (h : normDay b.startDate ≤ normDay b.endDate) :
    createdReminders uid b rid =
      (List.range (normDay b.endDate - normDay b.startDate + 1)).map fun i =>
        mkDayReminder uid b (rid + i) ((normDay b.startDate + i) * dayMs)
          (normDay b.endDate * dayMs + (dayMs - 1)) := by
  have h2 := createReminderLoop_eq uid b (normDay b.endDate - normDay b.startDate) rid
    (normDay b.startDate)
  rw [show normDay b.startDate + (normDay b.endDate - normDay b.startDate) = normDay b.endDate
    from by omega] at h2
  exact h2

/-- A request body spanning two calendar days (day 0 to day 1). -/
def exBody2 : CreateReminderBody :=
  ⟨"p", "t", "d", 4, 0, "daily", 0, 86400000, "1 pill", "n", "np"⟩

/-- C2 counterexample: over a two-day range the first created record's
`startDate` lies on day 0 but its `endDate` lies on day 1 — the record's
`endDate` is the end of the whole range, not the record's own calendar
day. -/
theorem createReminder_endDate_cex :
    (createdReminders 1 exBody2 100).length = 2 ∧
    ((createdReminders 1 exBody2 100).head?.map fun r => normDay r.startDate) = Option.some 0 ∧
    ((createdReminders 1 exBody2 100).head?.map fun r => normDay r.endDate) = Option.some 1 := by
  rw [createdReminders_eq 1 exBody2 100 (by decide)]
  decide

/-- C2 (amended): for a range spanning D calendar days, exactly D records
are created; the i-th record's `startDate` is its own day (the i-th day of
the range) and its `dailyStatuses` is seeded with a single active,
not-taken entry dated that day — but every record's `endDate` is the end of
the final day of the whole range. -/
theorem createReminder_series (uid : Nat) (b : CreateReminderBody) (rid : Nat)
    (h : normDay b.startDate ≤ normDay b.endDate) :
    (createdReminders uid b rid).length = normDay b.endDate - normDay b.startDate + 1 ∧
    ∀ (i : Nat) (hi : i < (createdReminders uid b rid).length),
      ((createdReminders uid b rid).get ⟨i, hi⟩).startDate = (normDay b.startDate + i) * dayMs ∧
      normDay (((createdReminders uid b rid).get ⟨i, hi⟩).startDate) = normDay b.startDate + i ∧
      ((createdReminders uid b rid).get ⟨i, hi⟩).dailyStatuses =
        [⟨(normDay b.startDate + i) * dayMs, "active", false⟩] ∧
      ((createdReminders uid b rid).get ⟨i, hi⟩).endDate = endOfDay b.endDate := by
  have he := createdReminders_eq uid b rid h
  constructor
  · rw [he]; simp
  · intro i hi
    have hget : (createdReminders uid b rid).get ⟨i, hi⟩ =
        mkDayReminder uid b (rid + i) ((normDay b.startDate + i) * dayMs)
          (normDay b.endDate * dayMs + (dayMs - 1)) := by
      have hi2 : i < (createdReminders uid b rid).length := hi
      rw [he] at hi2
      simp only [List.length_map, List.length_range] at hi2
      simp [he, List.get_eq_getElem, List.getElem_map, List.getElem_range]
    rw [hget]
    refine ⟨rfl, ?_, rfl, rfl⟩
    simp only [mkDayReminder, normDay, dayMs]
    omega

/-- Witness for the amended C2 theorem: the two-day body satisfies the
range hypothesis and yields exactly two records. -/
theorem createReminder_series_witness :
    normDay exBody2.startDate ≤ normDay exBody2.endDate ∧
    (createdReminders 1 exBody2 100).length =
      normDay exBody2.endDate - normDay exBody2.startDate + 1 :=
  ⟨by decide, (createReminder_series 1 exBody2 100 (by decide)).1⟩

/-- C8: when the start date's calendar day is strictly after the end
date's, the generation loop never runs: the handler still answers 201 with
an empty array, stores nothing, and leaves the user's reminder id list
unchanged — the range is never validated. -/
theorem createReminder_inverted_range_empty (uid : Nat) (b : CreateReminderBody) (rid : Nat)
    (db : List Reminder) (user : UserRec)
    (h : normDay b.endDate < normDay b.startDate) :
    createReminderH uid b rid db user = ((201, []), db, user) := by
  have hnle : ¬ (startOfDay b.startDate ≤ endOfDay b.endDate) := by
    simp only [startOfDay, endOfDay, normDay, dayMs] at h ⊢
    omega
  have hempty : createdReminders uid b rid = [] := by
    unfold createdReminders
    rw [createReminderLoop, dif_neg hnle]
  unfold createReminderH
  rw [hempty]
  simp

/-- A request body whose start day (1) is after its end day (0). -/
def exBody3 : CreateReminderBody :=
  ⟨"p", "t", "d", 4, 0, "daily", 86400000, 0, "1 pill", "n", "np"⟩

/-- Witness for C8 at a concrete inverted range. -/
theorem createReminder_inverted_range_empty_witness :
    createReminderH 1 exBody3 100 [] ⟨1, [5]⟩ = ((201, []), [], ⟨1, [5]⟩) :=
  createReminder_inverted_range_empty 1 exBody3 100 [] ⟨1, [5]⟩ (by decide)

/-! ## markReminderAsTaken daily-entry update -/
/-- `normDay` of a midnight timestamp recovers the day number. -/
lemma normDay_mul (d : Nat) : normDay (d * dayMs) = d := by
  simp only [normDay, dayMs]
  omega

/-- The entry returned by `updFirst` carries the given status verbatim and
`isTaken` exactly when the status is `completed`. -/
lemma updFirst_snd_status (d : Nat) (s : String) (l : List DailyStatus) :
    (updFirst d s l).2.status = s ∧ (updFirst d s l).2.isTaken = (s == "completed") := by
  induction l with
  | nil => exact ⟨rfl, rfl⟩
  | cons x rest ih =>
    by_cases hx : normDay x.date == d
    · simp [updFirst, hx]
    · simpa [updFirst, hx] using ih

/-- After `updFirst`, the first entry for day `d` is the returned one. -/
lemma updFirst_find (d : Nat) (s : String) (l : List DailyStatus) :
    (updFirst d s l).1.find? (fun e => normDay e.date == d) =
      Option.some (updFirst d s l).2 := by
  induction l with
  | nil => simp [updFirst, List.find?, normDay_mul]
  | cons x rest ih =>
    by_cases hx : normDay x.date == d
    · simp [updFirst, hx, List.find?]
    · simp only [updFirst, hx, if_false, Bool.false_eq_true]
      rw [List.find?_cons_of_neg _ (by simpa using hx)]
      exact ih

/-- When an entry for the day already exists, `updFirst` appends nothing. -/
lemma updFirst_length (d : Nat) (s : String) (l : List DailyStatus)
    (h : l.any fun e => normDay e.date == d) :
    (updFirst d s l).1.length = l.length := by
  induction l with
  | nil => simp at h
  | cons x rest ih =>
    by_cases hx : normDay x.date == d
    · simp [updFirst, hx]
    · simp only [List.any_cons, hx, Bool.false_or] at h
      simp [updFirst, hx, ih h]

/-- Entries for other days survive `updFirst` untouched. -/
lemma updFirst_other (d : Nat) (s : String) (l : List DailyStatus) :
    ∀ e ∈ l, normDay e.date ≠ d → e ∈ (updFirst d s l).1 := by
  induction l with
  | nil => simp
  | cons x rest ih =>
    intro e he hne
    by_cases hx : normDay x.date == d
    · simp only [updFirst, hx, if_pos]
      rcases List.mem_cons.mp he with rfl | hr
      · exact absurd (by simpa using hx) hne
      · exact List.mem_cons_of_mem _ hr
    · simp only [updFirst, hx, if_false, Bool.false_eq_true]
      rcases List.mem_cons.mp he with rfl | hr
      · exact List.mem_cons_self _ _
      · exact List.mem_cons_of_mem _ (ih e hr hne)

/-- The day numbers present after `updFirst`: unchanged when the day was
already present, otherwise extended by exactly that day. -/
lemma updFirst_dates (d : Nat) (s : String) (l : List DailyStatus) :
    ((updFirst d s l).1.map fun e => normDay e.date) =
      if l.any (fun e => normDay e.date == d) then l.map fun e => normDay e.date
      else (l.map fun e => normDay e.date) ++ [d] := by
  induction l with
  | nil => simp [updFirst, normDay_mul]
  | cons x rest ih =>
    by_cases hx : normDay x.date == d
    · simp [updFirst, hx]
    · simp only [updFirst, hx, if_false, Bool.false_eq_true, List.any_cons, Bool.false_or,
        List.map_cons]
      rw [ih]
      by_cases hr : rest.any fun e => normDay e.date == d
      · simp [hr]
      · simp [hr]


/-- A date string that parses to a day is in particular non-empty, so it
passes the falsiness guard. -/
lemma parseDay_ne_empty {ds : String} {d : Nat} (h : parseDay ds = Option.some d) :
    (ds == "") = false := by
  by_cases h0 : ds = ""
  · subst h0
    rw [show parseDay "" = Option.none from by decide] at h
    exact absurd h (by simp)
  · exact beq_eq_false_iff_ne.mpr h0

/-- C4: for an existing reminder with an entry for the requested date,
`markReminderAsTaken` sets that entry's status and taken flag (appending
nothing and leaving other dates' entries untouched); when the date equals
the current date it mirrors the values onto the top-level `status` and
`isTaken`, and otherwise leaves the top-level fields unchanged. -/
theorem markTaken_daily_today (uid rid d today : Nat) (ds s : String) (db : List Reminder)
    (r : Reminder)
    (hs : s ≠ "")
    (hds : parseDay ds = Option.some d)
    (hfind : db.find? (reminderCrit uid rid) = Option.some r)
    (hmem : r.dailyStatuses.any fun e => normDay e.date == d) :
    ∃ r' cs,
      markReminderAsTaken uid rid ⟨Option.some ds, Option.some s⟩ today db =
        (.ok r' cs, db.map fun x => if x.rid == r.rid then r' else x) ∧
      r'.dailyStatuses.find? (fun e => normDay e.date == d) = Option.some cs ∧
      cs.status = s ∧ cs.isTaken = (s == "completed") ∧
      r'.dailyStatuses.length = r.dailyStatuses.length ∧
      (∀ e ∈ r.dailyStatuses, normDay e.date ≠ d → e ∈ r'.dailyStatuses) ∧
      (d = today → r'.status = s ∧ r'.isTaken = (s == "completed")) ∧
      (d ≠ today → r'.status = r.status ∧ r'.isTaken = r.isTaken) := by
  have hbeq : (s == "") = false := beq_eq_false_iff_ne.mpr hs
  have hdbeq : (ds == "") = false := parseDay_ne_empty hds
  refine ⟨{ r with
      dailyStatuses := (updFirst d s r.dailyStatuses).1
      status := if normDay (d * dayMs) == today then s else r.status
      isTaken := if normDay (d * dayMs) == today then s == "completed" else r.isTaken },
    (updFirst d s r.dailyStatuses).2, ?_, ?_, ?_, ?_, ?_, ?_, ?_, ?_⟩
  · simp [markReminderAsTaken, strFalsy, hbeq, hdbeq, hfind, hds]
  · exact updFirst_find d s r.dailyStatuses
  · exact (updFirst_snd_status d s r.dailyStatuses).1
  · exact (updFirst_snd_status d s r.dailyStatuses).2
  · exact updFirst_length d s r.dailyStatuses hmem
  · exact updFirst_other d s r.dailyStatuses
  · intro hd
    subst hd
    simp [normDay_mul]
  · intro hd
    have : (normDay (d * dayMs) == today) = false := by
      rw [normDay_mul]
      exact beq_eq_false_iff_ne.mpr hd
    simp [this]


/-- C9: any status string is stored verbatim on the matched-or-created
daily entry, with no validation against the {active, completed, missed}
enum, and the daily `isTaken` flag (and the top-level one when the date is
today) is true exactly when the string is literally `completed`. -/
theorem markTaken_status_verbatim (uid rid d today : Nat) (ds s : String)
    (db : List Reminder) (r : Reminder)
    (hs : s ≠ "")
    (hds : parseDay ds = Option.some d)
    (hfind : db.find? (reminderCrit uid rid) = Option.some r) :
    ∃ r' cs,
      markReminderAsTaken uid rid ⟨Option.some ds, Option.some s⟩ today db =
        (.ok r' cs, db.map fun x => if x.rid == r.rid then r' else x) ∧
      cs.status = s ∧
      (cs.isTaken = true ↔ s = "completed") ∧
      (d = today → r'.status = s ∧ (r'.isTaken = true ↔ s = "completed")) ∧
      (d ≠ today → r'.status = r.status ∧ r'.isTaken = r.isTaken) := by
  have hbeq : (s == "") = false := beq_eq_false_iff_ne.mpr hs
  have hdbeq : (ds == "") = false := parseDay_ne_empty hds
  refine ⟨{ r with
      dailyStatuses := (updFirst d s r.dailyStatuses).1
      status := if normDay (d * dayMs) == today then s else r.status
      isTaken := if normDay (d * dayMs) == today then s == "completed" else r.isTaken },
    (updFirst d s r.dailyStatuses).2, ?_, ?_, ?_, ?_, ?_⟩
  · simp [markReminderAsTaken, strFalsy, hbeq, hdbeq, hfind, hds]
  · exact (updFirst_snd_status d s r.dailyStatuses).1
  · rw [(updFirst_snd_status d s r.dailyStatuses).2]
    exact beq_iff_eq
  · intro hd
    subst hd
    constructor
    · simp [normDay_mul]
    · simp only [normDay_mul, beq_self_eq_true, if_true]
      exact beq_iff_eq
  · intro hd
    have hne : (normDay (d * dayMs) == today) = false := by
      rw [normDay_mul]
      exact beq_eq_false_iff_ne.mpr hd
    simp [hne]

/-- A stored reminder for day 0 owned by user 1, with one seeded entry. -/
def exRem : Reminder :=
  { rid := 9, user := 1, medicineId := 4, product := "p", title := "t", description := "de"
    time := 3600000, frequency := "daily", startDate := 0, endDate := 86399999
    dosage := "1", notes := "n", notificationPreferences := "np"
    status := "active", isTaken := false, isDeleted := false, deletedAt := Option.none
    dailyStatuses := [⟨0, "active", false⟩] }

/-- Witness for C4 at a concrete reminder, marking day 0 as completed on
day 0. -/
theorem markTaken_daily_today_witness :
    (markReminderAsTaken 1 9 ⟨Option.some "0", Option.some "completed"⟩ 0 [exRem]).1.code
      = 200 := by
  obtain ⟨r', cs, heq, -⟩ :=
    markTaken_daily_today 1 9 0 0 "0" "completed" [exRem] exRem (by decide) (by decide)
      (by decide) (by decide)
  rw [heq]
  rfl

/-- Witness for C9 with a status string outside the enum, on a date other
than today. -/
theorem markTaken_status_verbatim_witness :
    (markReminderAsTaken 1 9 ⟨Option.some "0", Option.some "whatever"⟩ 5 [exRem]).1.code
      = 200 := by
  obtain ⟨r', cs, heq, -⟩ :=
    markTaken_status_verbatim 1 9 0 5 "0" "whatever" [exRem] exRem (by decide) (by decide)
      (by decide)
  rw [heq]
  rfl

/-! ## getRemindersByDate, the uniqueness invariant, error paths, soft delete -/

/-- `ensureDaily` when no entry for the day exists: append the default. -/
lemma ensureDaily_of_none (d : Nat) (r : Reminder)
    (h : r.dailyStatuses.find? (fun e => normDay e.date == d) = Option.none) :
    ensureDaily d r =
      ({ r with dailyStatuses := r.dailyStatuses ++ [defaultStatus d] }, defaultStatus d) := by
  simp [ensureDaily, h]

/-- `ensureDaily` when an entry exists: return it, reminder untouched. -/
lemma ensureDaily_of_some (d : Nat) (r : Reminder) (ds : DailyStatus)
    (h : r.dailyStatuses.find? (fun e => normDay e.date == d) = Option.some ds) :
    ensureDaily d r = (r, ds) := by
  simp [ensureDaily, h]

/-- The lazily appended default entry is found on a later scan. -/
lemma find?_append_default (d : Nat) (l : List DailyStatus)
    (h : l.find? (fun e => normDay e.date == d) = Option.none) :
    (l ++ [defaultStatus d]).find? (fun e => normDay e.date == d) =
      Option.some (defaultStatus d) := by
  rw [List.find?_append, h]
  simp [defaultStatus, normDay_mul]

/-- `ensureDaily` only ever touches `dailyStatuses`. -/
lemma ensureDaily_fields (d : Nat) (r : Reminder) :
    (ensureDaily d r).1.user = r.user ∧ (ensureDaily d r).1.isDeleted = r.isDeleted ∧
    (ensureDaily d r).1.startDate = r.startDate ∧ (ensureDaily d r).1.endDate = r.endDate ∧
    (ensureDaily d r).1.time = r.time := by
  cases h : r.dailyStatuses.find? fun e => normDay e.date == d with
  | none => rw [ensureDaily_of_none d r h]; exact ⟨rfl, rfl, rfl, rfl, rfl⟩
  | some ds => rw [ensureDaily_of_some d r ds h]; exact ⟨rfl, rfl, rfl, rfl, rfl⟩

/-- The query window does not read `dailyStatuses`, so `ensureDaily`
preserves it. -/
lemma overlaps_ensureDaily (uid d : Nat) (r : Reminder) :
    overlapsQuery uid d (ensureDaily d r).1 = overlapsQuery uid d r := by
  obtain ⟨h1, h2, h3, h4, h5⟩ := ensureDaily_fields d r
  unfold overlapsQuery
  rw [h1, h2, h3, h4, h5]

/-- Ensuring a day's entry twice is the same as once. -/
lemma ensureDaily_idem (d : Nat) (r : Reminder) :
    (ensureDaily d (ensureDaily d r).1).1 = (ensureDaily d r).1 := by
  cases h : r.dailyStatuses.find? fun e => normDay e.date == d with
  | none =>
    rw [ensureDaily_of_none d r h]
    rw [ensureDaily_of_some d _ (defaultStatus d) (by simpa using find?_append_default d _ h)]
  | some ds =>
    rw [ensureDaily_of_some d r ds h, ensureDaily_of_some d r ds h]

/-- The per-reminder collection effect of `getRemindersByDate` is
idempotent. -/
lemma refreshForDate_idem (uid d : Nat) (r : Reminder) :
    refreshForDate uid d (refreshForDate uid d r) = refreshForDate uid d r := by
  unfold refreshForDate
  by_cases h : overlapsQuery uid d r = true
  · rw [if_pos h, if_pos (by rw [overlaps_ensureDaily]; exact h), ensureDaily_idem]
  · rw [if_neg h, if_neg h]

/-- A repeated `getRemindersByDate` call leaves the collection unchanged. -/
lemma getRemindersByDate_fst_idem (uid d : Nat) (db : List Reminder) :
    (getRemindersByDate uid d ((getRemindersByDate uid d db).1)).1 =
      (getRemindersByDate uid d db).1 := by
  show (db.map (refreshForDate uid d)).map (refreshForDate uid d) =
    db.map (refreshForDate uid d)
  rw [List.map_map]
  exact List.map_congr_left fun r _ => refreshForDate_idem uid d r


/-- C5: for a reminder matching the date query and lacking an entry for the
day, `getRemindersByDate` persists a default active/not-taken entry,
returns it as the attached `currentStatus`, a rescan of the updated
reminder finds the entry already present, and a second call leaves the
whole collection unchanged. -/
theorem getByDate_lazy_create_idem (uid d : Nat) (db : List Reminder) (r : Reminder)
    (hmem : r ∈ db)
    (hov : overlapsQuery uid d r = true)
    (hnone : r.dailyStatuses.find? (fun e => normDay e.date == d) = Option.none) :
    (defaultStatus d).status = "active" ∧ (defaultStatus d).isTaken = false ∧
    { r with dailyStatuses := r.dailyStatuses ++ [defaultStatus d] } ∈
      (getRemindersByDate uid d db).1 ∧
    ({ r with dailyStatuses := r.dailyStatuses ++ [defaultStatus d] }, defaultStatus d) ∈
      (getRemindersByDate uid d db).2 ∧
    (ensureDaily d { r with dailyStatuses := r.dailyStatuses ++ [defaultStatus d] }).1 =
      { r with dailyStatuses := r.dailyStatuses ++ [defaultStatus d] } ∧
    (getRemindersByDate uid d ((getRemindersByDate uid d db).1)).1 =
      (getRemindersByDate uid d db).1 := by
  have hens := ensureDaily_of_none d r hnone
  refine ⟨rfl, rfl, ?_, ?_, ?_, getRemindersByDate_fst_idem uid d db⟩
  · have : refreshForDate uid d r =
        { r with dailyStatuses := r.dailyStatuses ++ [defaultStatus d] } := by
      unfold refreshForDate
      rw [if_pos hov, hens]
    exact this ▸ List.mem_map_of_mem (refreshForDate uid d) hmem
  · have h1 : r ∈ (db.filter (overlapsQuery uid d)).mergeSort
        (fun a b => a.time ≤ b.time) :=
      List.mem_mergeSort.mpr (List.mem_filter.mpr ⟨hmem, hov⟩)
    have h2 := List.mem_map_of_mem (ensureDaily d) h1
    rwa [hens] at h2
  · rw [ensureDaily_of_some d _ (defaultStatus d)
      (by simpa using find?_append_default d _ hnone)]


/-- A stored reminder covering day 0 with no daily entries yet. -/
def exRem2 : Reminder :=
  { rid := 11, user := 1, medicineId := 4, product := "p", title := "t2", description := "de"
    time := 3600000, frequency := "daily", startDate := 0, endDate := 86399999
    dosage := "1", notes := "n", notificationPreferences := "np"
    status := "active", isTaken := false, isDeleted := false, deletedAt := Option.none
    dailyStatuses := [] }

/-- Witness for C5: the second call on the concrete store is a no-op. -/
theorem getByDate_lazy_create_idem_witness :
    (getRemindersByDate 1 0 ((getRemindersByDate 1 0 [exRem2]).1)).1 =
      (getRemindersByDate 1 0 [exRem2]).1 :=
  (getByDate_lazy_create_idem 1 0 [exRem2] exRem2 (by decide) (by decide)
    (by decide)).2.2.2.2.2

/-- The C6 invariant: at most one `dailyStatuses` entry per calendar day
(under the string-normalised comparison modelled by `normDay`). -/
def uniqueDaily (r : Reminder) : Prop :=
  (r.dailyStatuses.map fun e => normDay e.date).Nodup

/-- Every record produced by the generation loop carries exactly the one
seeded entry. -/
lemma createReminderLoop_daily (uid : Nat) (b : CreateReminderBody) :
    ∀ (rid cur endT : Nat), ∀ x ∈ createReminderLoop uid b rid cur endT,
      x.dailyStatuses = [⟨x.startDate, "active", false⟩] := by
  intro rid cur endT
  induction rid, cur, endT using createReminderLoop.induct uid b with
  | case1 rid cur endT h ih =>
    intro x hx
    rw [createReminderLoop, dif_pos h] at hx
    rcases List.mem_cons.mp hx with rfl | hr
    · rfl
    · exact ih x hr
  | case2 rid cur endT h =>
    intro x hx
    rw [createReminderLoop, dif_neg h] at hx
    simp at hx


/-- `ensureDaily` preserves day-uniqueness: it appends only when the day is
absent. -/
lemma ensureDaily_unique (d : Nat) (r : Reminder) (h : uniqueDaily r) :
    uniqueDaily (ensureDaily d r).1 := by
  cases hf : r.dailyStatuses.find? fun e => normDay e.date == d with
  | some ds => rw [ensureDaily_of_some d r ds hf]; exact h
  | none =>
    rw [ensureDaily_of_none d r hf]
    unfold uniqueDaily at h ⊢
    simp only [List.map_append]
    refine List.Nodup.append h (by simp [defaultStatus, normDay_mul]) ?_
    intro a ha hb
    simp only [defaultStatus, List.map_cons, List.map_nil, normDay_mul,
      List.mem_singleton] at hb
    subst hb
    obtain ⟨e, he, heq⟩ := List.mem_map.mp ha
    exact (List.find?_eq_none.mp hf e he) (by simp [heq])

/-- `updFirst` preserves day-uniqueness: it rewrites in place, appending
only when the day is absent. -/
lemma updFirst_unique (d : Nat) (s : String) (l : List DailyStatus)
    (h : (l.map fun e => normDay e.date).Nodup) :
    ((updFirst d s l).1.map fun e => normDay e.date).Nodup := by
  rw [updFirst_dates]
  by_cases ha : l.any fun e => normDay e.date == d
  · rw [if_pos ha]; exact h
  · rw [if_neg ha]
    refine List.Nodup.append h (List.nodup_singleton d) ?_
    intro a hmem hb
    simp only [List.mem_singleton] at hb
    subst hb
    obtain ⟨e, he, heq⟩ := List.mem_map.mp hmem
    exact ha (List.any_eq_true.mpr ⟨e, he, by simp [heq]⟩)

/-- C6: starting from reminders whose `dailyStatuses` have at most one
entry per day, `createReminder`, `getRemindersByDate` and
`markReminderAsTaken` each leave every stored (or created) reminder with at
most one entry per day. -/
theorem daily_unique_invariant (uid rid d today ridBase : Nat) (b : CreateReminderBody)
    (body : MarkBody) (db : List Reminder)
    (hu : ∀ r ∈ db, uniqueDaily r) :
    (∀ r ∈ createdReminders uid b ridBase, uniqueDaily r) ∧
    (∀ r' ∈ (getRemindersByDate uid d db).1, uniqueDaily r') ∧
    (∀ r' ∈ (markReminderAsTaken uid rid body today db).2, uniqueDaily r') := by
  refine ⟨?_, ?_, ?_⟩
  · intro r hr
    have hd := createReminderLoop_daily uid b ridBase (startOfDay b.startDate)
      (endOfDay b.endDate) r hr
    unfold uniqueDaily
    rw [hd]
    simp
  · intro r' hr'
    obtain ⟨x, hx, rfl⟩ := List.mem_map.mp hr'
    unfold refreshForDate
    by_cases hov : overlapsQuery uid d x = true
    · rw [if_pos hov]
      exact ensureDaily_unique d x (hu x hx)
    · rw [if_neg hov]
      exact hu x hx
  · intro r' hr'
    unfold markReminderAsTaken at hr'
    by_cases hc : (strFalsy body.date || strFalsy body.status) = true
    · rw [if_pos hc] at hr'
      exact hu r' hr'
    · rw [if_neg hc] at hr'
      obtain ⟨od, os⟩ := body
      cases od with
      | none => simp [strFalsy] at hc
      | some ds =>
        cases os with
        | none => simp [strFalsy] at hc
        | some s' =>
          cases hf : db.find? (reminderCrit uid rid) with
          | none =>
            rw [hf] at hr'
            exact hu r' hr'
          | some r =>
            rw [hf] at hr'
            simp only at hr'
            cases hp : parseDay ds with
            | none =>
              rw [hp] at hr'
              exact hu r' hr'
            | some d' =>
              rw [hp] at hr'
              simp only at hr'
              obtain ⟨x, hx, hxe⟩ := List.mem_map.mp hr'
              by_cases hid : (x.rid == r.rid) = true
              · rw [if_pos hid] at hxe
                subst hxe
                exact updFirst_unique d' s' r.dailyStatuses
                  (hu r (List.mem_of_find?_eq_some hf))
              · rw [if_neg hid] at hxe
                subst hxe
                exact hu x hx


/-- C10: `deleteReminder` soft-deletes — it flags every stored copy of the
id as deleted with a `deletedAt` stamp and pulls the id from the user's
list — and on any collection whose copies of the id are all flagged
deleted, `getReminder` misses it, `getUserReminders` excludes it,
`updateReminder` and `markReminderAsTaken` answer not-found (never 200)
without touching the collection, and `getRemindersByDate` neither returns
nor mutates deleted reminders. -/
theorem deleteReminder_soft_delete (uid rid now d today : Nat) (u : UpdateBody)
    (body : MarkBody) (db : List Reminder) (user : UserRec) (r : Reminder)
    (hfind : db.find? (reminderCrit uid rid) = Option.some r) :
    (∀ x ∈ (deleteReminderH uid rid now db user).2.1, x.rid = rid →
        x.isDeleted = true ∧ x.deletedAt = Option.some now) ∧
    rid ∉ (deleteReminderH uid rid now db user).2.2.reminders ∧
    (∀ db1 : List Reminder, (∀ x ∈ db1, x.rid = rid → x.isDeleted = true) →
      getReminderH uid rid db1 = Option.none ∧
      (∀ x ∈ getUserRemindersH uid db1, x.rid ≠ rid) ∧
      updateReminderH uid rid u db1 = (Option.none, db1) ∧
      (markReminderAsTaken uid rid body today db1).1.code ≠ 200 ∧
      (markReminderAsTaken uid rid body today db1).2 = db1 ∧
      (∀ x ∈ db1, x.isDeleted = true → refreshForDate uid d x = x) ∧
      (∀ p ∈ (getRemindersByDate uid d db1).2, p.1.isDeleted = false)) := by
  have hcrit := List.find?_some hfind
  simp only [reminderCrit, Bool.and_eq_true, beq_iff_eq, Bool.not_eq_true'] at hcrit
  obtain ⟨⟨hrid, huser⟩, hdel0⟩ := hcrit
  have hdeleq : deleteReminderH uid rid now db user =
      (Option.some { r with isDeleted := true, deletedAt := Option.some now },
       db.map fun x => if x.rid == r.rid then
         { r with isDeleted := true, deletedAt := Option.some now } else x,
       { user with reminders := user.reminders.filter fun i => i ≠ r.rid }) := by
    unfold deleteReminderH
    rw [hfind]
  refine ⟨?_, ?_, ?_⟩
  · intro x hx hxrid
    rw [hdeleq] at hx
    obtain ⟨y, hy, hye⟩ := List.mem_map.mp hx
    by_cases hid : (y.rid == r.rid) = true
    · rw [if_pos hid] at hye
      subst hye
      exact ⟨rfl, rfl⟩
    · rw [if_neg hid] at hye
      subst hye
      exact absurd (by rw [hxrid, hrid] : y.rid = r.rid) (by simpa using hid)
  · rw [hdeleq]
    intro hmem
    have := List.of_mem_filter hmem
    simp only [decide_eq_true_eq] at this
    exact this hrid.symm
  · intro db1 hdb1
    have hnone : db1.find? (reminderCrit uid rid) = Option.none := by
      rw [List.find?_eq_none]
      intro x hx hcx
      simp only [reminderCrit, Bool.and_eq_true, beq_iff_eq, Bool.not_eq_true'] at hcx
      exact absurd (hdb1 x hx hcx.1.1) (by rw [hcx.2]; simp)
    refine ⟨hnone, ?_, ?_, ?_, ?_, ?_, ?_⟩
    · intro x hx
      have hxf := List.mem_mergeSort.mp hx
      have := List.mem_filter.mp hxf
      simp only [Bool.and_eq_true, beq_iff_eq, Bool.not_eq_true'] at this
      intro hxr
      exact absurd (hdb1 x this.1 hxr) (by rw [this.2.2]; simp)
    · unfold updateReminderH
      rw [hnone]
    · unfold markReminderAsTaken
      by_cases hc : (strFalsy body.date || strFalsy body.status) = true
      · rw [if_pos hc]
        simp [MarkResponse.code]
      · rw [if_neg hc]
        obtain ⟨od, os⟩ := body
        cases od with
        | none => simp [strFalsy] at hc
        | some ds =>
          cases os with
          | none => simp [strFalsy] at hc
          | some s' =>
            rw [hnone]
            simp [MarkResponse.code]
    · unfold markReminderAsTaken
      by_cases hc : (strFalsy body.date || strFalsy body.status) = true
      · rw [if_pos hc]
      · rw [if_neg hc]
        obtain ⟨od, os⟩ := body
        cases od with
        | none => simp [strFalsy] at hc
        | some ds =>
          cases os with
          | none => simp [strFalsy] at hc
          | some s' =>
            rw [hnone]
    · intro x hx hxdel
      unfold refreshForDate
      rw [if_neg]
      unfold overlapsQuery
      rw [hxdel]
      simp
    · intro p hp
      obtain ⟨x, hx, rfl⟩ := List.mem_map.mp hp
      have hxf := List.mem_filter.mp (List.mem_mergeSort.mp hx)
      have hov := hxf.2
      unfold overlapsQuery at hov
      simp only [Bool.and_eq_true, Bool.not_eq_true'] at hov
      have := (ensureDaily_fields d x).2.1
      rw [this, hov.1.2]


/-- C7 counterexample: a request whose `date` and `status` fields are both
present — the date the empty string, the status `completed` — still gets
HTTP 400 (JavaScript falsiness of `!date`), refuting the claim that 400
occurs exactly when a field is missing. -/
theorem markTaken_400_despite_present_cex :
    (⟨Option.some "", Option.some "completed"⟩ : MarkBody).date ≠ Option.none ∧
    (⟨Option.some "", Option.some "completed"⟩ : MarkBody).status ≠ Option.none ∧
    (markReminderAsTaken 1 9 ⟨Option.some "", Option.some "completed"⟩ 0 [exRem]).1 =
      .badRequest (Option.some "") (Option.some "completed") ∧
    (markReminderAsTaken 1 9 ⟨Option.some "", Option.some "completed"⟩ 0 [exRem]).1.code
      = 400 := by
  decide

/-- C7 (amended): the handler answers 400 — echoing the received date and
status — exactly when the date is missing or empty or the status is
missing or empty (JavaScript falsiness of either raw field); when both are
non-empty but no matching non-deleted owned reminder exists it answers
404; and in every non-200 outcome the stored collection is unchanged. -/
theorem markTaken_error_cases (uid rid today : Nat) (body : MarkBody) (db : List Reminder) :
    ((markReminderAsTaken uid rid body today db).1.code = 400 ↔
      (strFalsy body.date = true ∨ strFalsy body.status = true)) ∧
    ((markReminderAsTaken uid rid body today db).1.code = 400 →
      (markReminderAsTaken uid rid body today db).1 = .badRequest body.date body.status) ∧
    (strFalsy body.date = false → strFalsy body.status = false →
      db.find? (reminderCrit uid rid) = Option.none →
      (markReminderAsTaken uid rid body today db).1 = .notFound) ∧
    ((markReminderAsTaken uid rid body today db).1.code ≠ 200 →
      (markReminderAsTaken uid rid body today db).2 = db) := by
  obtain ⟨od, os⟩ := body
  cases od with
  | none =>
    have heq : markReminderAsTaken uid rid ⟨Option.none, os⟩ today db =
        (.badRequest Option.none os, db) := by
      unfold markReminderAsTaken
      simp [strFalsy]
    rw [heq]
    refine ⟨by simp [MarkResponse.code, strFalsy], fun _ => rfl, ?_, fun _ => rfl⟩
    intro hfal _ _
    simp [strFalsy] at hfal
  | some ds =>
    cases os with
    | none =>
      have heq : markReminderAsTaken uid rid ⟨Option.some ds, Option.none⟩ today db =
          (.badRequest (Option.some ds) Option.none, db) := by
        unfold markReminderAsTaken
        simp [strFalsy]
      rw [heq]
      refine ⟨by simp [MarkResponse.code, strFalsy], fun _ => rfl, ?_, fun _ => rfl⟩
      intro _ hfal _
      simp [strFalsy] at hfal
    | some s =>
      by_cases hdse : (ds == "") = true
      · have heq : markReminderAsTaken uid rid ⟨Option.some ds, Option.some s⟩ today db =
            (.badRequest (Option.some ds) (Option.some s), db) := by
          unfold markReminderAsTaken
          simp [strFalsy, hdse]
        rw [heq]
        refine ⟨by simp [MarkResponse.code, strFalsy, hdse], fun _ => rfl, ?_, fun _ => rfl⟩
        intro hfal _ _
        rw [strFalsy] at hfal
        exact absurd hdse (by rw [hfal]; simp)
      · by_cases hse : (s == "") = true
        · have heq : markReminderAsTaken uid rid ⟨Option.some ds, Option.some s⟩ today db =
              (.badRequest (Option.some ds) (Option.some s), db) := by
            unfold markReminderAsTaken
            simp [strFalsy, hse]
          rw [heq]
          refine ⟨by simp [MarkResponse.code, strFalsy, hse], fun _ => rfl, ?_, fun _ => rfl⟩
          intro _ hfal _
          rw [strFalsy] at hfal
          exact absurd hse (by rw [hfal]; simp)
        · cases hf : db.find? (reminderCrit uid rid) with
          | none =>
            have heq : markReminderAsTaken uid rid ⟨Option.some ds, Option.some s⟩ today db =
                (.notFound, db) := by
              unfold markReminderAsTaken
              rw [if_neg (by simp [strFalsy, hdse, hse])]
              simp [hf]
            rw [heq]
            refine ⟨by simp [MarkResponse.code, strFalsy, hdse, hse], ?_, fun _ _ _ => rfl,
              fun _ => rfl⟩
            intro h400
            simp [MarkResponse.code] at h400
          | some r =>
            cases hp : parseDay ds with
            | none =>
              have heq : markReminderAsTaken uid rid ⟨Option.some ds, Option.some s⟩ today db =
                  (.serverError, db) := by
                unfold markReminderAsTaken
                rw [if_neg (by simp [strFalsy, hdse, hse])]
                simp [hf, hp]
              rw [heq]
              refine ⟨by simp [MarkResponse.code, strFalsy, hdse, hse], ?_, ?_, fun _ => rfl⟩
              · intro h400
                simp [MarkResponse.code] at h400
              · intro _ _ hnone
                exact absurd hnone (by simp)
            | some dnum =>
              have heq : (markReminderAsTaken uid rid ⟨Option.some ds, Option.some s⟩
                  today db).1.code = 200 := by
                unfold markReminderAsTaken
                rw [if_neg (by simp [strFalsy, hdse, hse])]
                simp only [hf, hp]
                rfl
              rw [heq]
              refine ⟨by simp [MarkResponse.code, strFalsy, hdse, hse], ?_, ?_,
                fun h => absurd rfl h⟩
              · intro h400
                exact absurd h400 (by norm_num)
              · intro _ _ hnone
                exact absurd hnone (by simp)


/-- Witness for the amended C7 theorem: a valid, non-falsy body against an
empty store yields the not-found response. -/
theorem markTaken_error_cases_witness :
    (markReminderAsTaken 1 9 ⟨Option.some "0", Option.some "completed"⟩ 0 []).1 =
      .notFound :=
  (markTaken_error_cases 1 9 0 ⟨Option.some "0", Option.some "completed"⟩ []).2.2.1
    (by decide) (by decide) (by decide)

/-- Witness for C6: the reminder stored after a concrete mark-taken call
still has unique days. -/
theorem daily_unique_invariant_witness :
    uniqueDaily (((markReminderAsTaken 1 9 ⟨Option.some "0", Option.some "completed"⟩ 0
      [exRem]).2).getD 0 exRem) :=
  (daily_unique_invariant 1 9 0 0 100 exBody2 ⟨Option.some "0", Option.some "completed"⟩
    [exRem]
    (by
      intro r hr
      rw [List.mem_singleton] at hr
      subst hr
      unfold uniqueDaily
      decide)).2.2 _ (by decide)

/-- An update body with every field absent. -/
def exUpd : UpdateBody :=
  ⟨Option.none, Option.none, Option.none, Option.none, Option.none, Option.none,
   Option.none, Option.none, Option.none, Option.none, Option.none⟩

/-- Witness for C10: after deleting, the id is gone from the user's
reminder list. -/
theorem deleteReminder_soft_delete_witness :
    9 ∉ (deleteReminderH 1 9 5 [exRem] ⟨1, [9]⟩).2.2.reminders :=
  (deleteReminder_soft_delete 1 9 5 0 0 exUpd ⟨Option.some "0", Option.some "completed"⟩
    [exRem] ⟨1, [9]⟩ exRem (by decide)).2.1

end Sehaty
